import Mathlib

/-!
Verification of the async-require module transform
(src/swc_async_require_plugin/src/lib.rs).

The transform rewrites an ECMAScript module tree: static imports become
awaited calls of an async-require primitive, exports become assignments to
a CommonJS-style exports object, and bare calls of the synchronous loader
are renamed.  The Lean model below is a shallow embedding of the Rust
visitor: the AST types mirror the swc node shapes exactly as the source
pattern-matches them (spans, which the source always sets to DUMMY_SP and
never inspects, are dropped; the only assignment operator the source ever
constructs or distinguishes is plain assignment, so the operator field is
dropped too).
-/

namespace Swc

/-- An identifier node; only the symbol matters (spans are dropped). -/
structure Ident where
  sym : String
deriving Repr

/-- A string literal; the source always sets raw to None and only ever
reads value, so only value is modelled. -/
structure Str where
  value : String
deriving Repr

/-- Literal expressions.  The transform only constructs string literals;
numeric literals are kept so that inputs such as export default 1 exist. -/
inductive Lit where
  | strL (s : Str)
  | numL (n : Int)
deriving Repr

/-- The module-export-name shape matched at lib.rs lines 132-136:
either an identifier or a string. -/
inductive ModuleExportName where
  | identM (i : Ident)
  | strM (s : Str)
deriving Repr

/-- Import specifiers as matched at lib.rs lines 113-158. -/
inductive ImportSpecifier where
  | defaultSpec (loc : Ident)
  | namedSpec (loc : Ident) (imported : Option ModuleExportName)
  | namespaceSpec (loc : Ident)
deriving Repr

/-- Export specifiers as matched at lib.rs lines 213-220.  The source
reads orig.sym and exported.sym directly, so both are plain identifiers.
The default re-export shape (export v from ...) exists in the node set but
is matched by neither branch of the source's if/else-if chain. -/
inductive ExportSpecifier where
  | namedE (orig : Ident) (exported : Ident)
  | namespaceE (name : Ident)
  | defaultE (loc : Ident)
deriving Repr

/-- Kinds of variable declarations; the transform emits Const. -/
inductive VarDeclKind where
  | varK
  | letK
  | constK
deriving Repr

/-- Binding patterns.  The source only distinguishes Pat::Ident from
everything else (lib.rs line 193); destructuring patterns are modelled by
an object pattern binding its property names, with nesting elided. -/
inductive Pat where
  | ident (id : Ident)
  | objectPat (props : List Ident)
deriving Repr

mutual
/-- Expression nodes, covering every shape the source constructs or
traverses. -/
inductive Expr where
  | ident (i : Ident)
  | lit (l : Lit)
  | call (c : CallExpr)
  | member (obj : Expr) (prop : MemberProp)
  | await (arg : Expr)
  | assign (left : Expr) (right : Expr)
  | fnExpr (ident : Option Ident) (function : FunctionNode)
  | classExpr (ident : Option Ident) (cls : ClassDef)
inductive CallExpr where
  | mk (callee : Callee) (args : List ExprOrSpread)
inductive Callee where
  | expr (e : Expr)
  | dynImport
inductive ExprOrSpread where
  | mk (spread : Bool) (e : Expr)
inductive MemberProp where
  | identProp (i : Ident)
  | computedProp (e : Expr)
inductive Stmt where
  | decl (d : Decl)
  | exprStmt (e : Expr)
  | block (body : List Stmt)
  | ret (arg : Option Expr)
inductive Decl where
  | var (v : VarDecl)
  | fn (ident : Ident) (function : FunctionNode)
  | classDecl (ident : Ident) (cls : ClassDef)
inductive VarDecl where
  | mk (kind : VarDeclKind) (decls : List VarDeclarator)
inductive VarDeclarator where
  | mk (name : Pat) (init : Option Expr)
inductive FunctionNode where
  | mk (params : List Pat) (body : List Stmt)
inductive ClassDef where
  | mk (superClass : Option Expr) (members : List FunctionNode)
end

/-- The default-export payload shapes matched at lib.rs lines 180-182:
an expression, a function (optional name), or a class (optional name). -/
inductive DefaultDecl where
  | exprD (e : Expr)
  | fnD (ident : Option Ident) (function : FunctionNode)
  | classD (ident : Option Ident) (cls : ClassDef)

/-- An import declaration: specifiers plus the source-module string. -/
structure ImportDecl where
  specifiers : List ImportSpecifier
  src : Str

/-- A named export: an optional inline declaration, specifiers, and an
optional source (the fields the source reads at lib.rs lines 186-223). -/
structure NamedExport where
  decl : Option Decl
  specifiers : List ExportSpecifier
  src : Option Str

/-- Module declarations: the three kinds the source matches explicitly,
plus the star re-export which falls to the catch-all arm (line 225). -/
inductive ModuleDecl where
  | importD (d : ImportDecl)
  | exportDefaultDecl (decl : DefaultDecl)
  | exportNamed (n : NamedExport)
  | exportAll (src : Str)

/-- A top-level module item: a statement or a module declaration. -/
inductive ModuleItem where
  | stmt (s : Stmt)
  | moduleDecl (d : ModuleDecl)

/-- The program root: a module or a script (lib.rs lines 103-104, 232). -/
inductive Program where
  | module (body : List ModuleItem)
  | script (body : List Stmt)

/-- The transformer state (lib.rs lines 86-88): a counter for synthetic
names. -/
structure AsyncRequireTransform where
  tmp_counter : Nat

/-- AsyncRequireTransform::new (lib.rs lines 91-93). -/
def AsyncRequireTransform.new : AsyncRequireTransform :=
  { tmp_counter := 0 }

/-- next_tmp (lib.rs lines 94-98): yields a synthetic name and bumps the
counter. -/
def next_tmp (t : AsyncRequireTransform) : String × AsyncRequireTransform :=
  ("__mod_" ++ toString t.tmp_counter ++ "__", { tmp_counter := t.tmp_counter + 1 })

/-- visit_mut_call_expr (lib.rs lines 236-248): rename a bare require
callee to the async-require identifier, and replace a dynamic-import
callee with the async-import identifier.  The override does not recurse
into the call's children, so arguments and nested callees are untouched. -/
def visit_mut_call_expr : CallExpr → CallExpr
  | .mk callee args =>
    let callee1 := match callee with
      | .expr (.ident i) =>
          if i.sym = ("require") then Callee.expr (.ident ⟨"__require__"⟩)
          else Callee.expr (.ident i)
      | c => c
    let callee2 := match callee1 with
      | .dynImport => Callee.expr (.ident ⟨"__import__"⟩)
      | c => c
    .mk callee2 args

mutual
/-- The default visitor traversal over expressions used when a plain
statement is visited (lib.rs line 171): recurse everywhere except into a
call expression, whose visit is the non-recursive override above. -/
def visitExpr : Expr → Expr
  | .ident i => .ident i
  | .lit l => .lit l
  | .call c => .call (visit_mut_call_expr c)
  | .member obj p => .member (visitExpr obj) (visitMemberProp p)
  | .await a => .await (visitExpr a)
  | .assign l r => .assign (visitExpr l) (visitExpr r)
  | .fnExpr id f => .fnExpr id (visitFunction f)
  | .classExpr id c => .classExpr id (visitClassDef c)
def visitMemberProp : MemberProp → MemberProp
  | .identProp i => .identProp i
  | .computedProp e => .computedProp (visitExpr e)
def visitOptExpr : Option Expr → Option Expr
  | none => none
  | some e => some (visitExpr e)
def visitFunction : FunctionNode → FunctionNode
  | .mk ps body => .mk ps (visitStmts body)
def visitFunctions : List FunctionNode → List FunctionNode
  | [] => []
  | f :: fs => visitFunction f :: visitFunctions fs
def visitClassDef : ClassDef → ClassDef
  | .mk sup members => .mk (visitOptExpr sup) (visitFunctions members)
def visitStmt : Stmt → Stmt
  | .decl d => .decl (visitDecl d)
  | .exprStmt e => .exprStmt (visitExpr e)
  | .block body => .block (visitStmts body)
  | .ret a => .ret (visitOptExpr a)
def visitStmts : List Stmt → List Stmt
  | [] => []
  | s :: ss => visitStmt s :: visitStmts ss
def visitDecl : Decl → Decl
  | .var v => .var (visitVarDecl v)
  | .fn id f => .fn id (visitFunction f)
  | .classDecl id c => .classDecl id (visitClassDef c)
def visitVarDecl : VarDecl → VarDecl
  | .mk kind ds => .mk kind (visitVarDeclarators ds)
def visitVarDeclarators : List VarDeclarator → List VarDeclarator
  | [] => []
  | d :: ds => visitVarDeclarator d :: visitVarDeclarators ds
def visitVarDeclarator : VarDeclarator → VarDeclarator
  | .mk name init => .mk name (visitOptExpr init)
end

/-- The awaited async-require call built for import rewrites
(lib.rs lines 117-126, 137-143, 149-155, 164-165). -/
def awaitedRequire (src : Str) : Expr :=
  .await (.call (.mk (.expr (.ident ⟨"__require__"⟩))
    [.mk false (.lit (.strL src))]))

/-- One variable declarator per import specifier (the loop body at
lib.rs lines 112-158). -/
def importSpecDeclarator (src : Str) : ImportSpecifier → VarDeclarator
  | .defaultSpec loc => .mk (.ident loc) (some (awaitedRequire src))
  | .namedSpec loc imported =>
      let importedSym : String := match imported with
        | some (.identM i) => i.sym
        | some (.strM s) => s.value
        | none => loc.sym
      .mk (.ident loc)
        (some (.member (awaitedRequire src) (.identProp ⟨importedSym⟩)))
  | .namespaceSpec loc => .mk (.ident loc) (some (awaitedRequire src))

/-- The declarator list built by the for-loop over specifiers. -/
def importDeclarators (src : Str) : List ImportSpecifier → List VarDeclarator
  | [] => []
  | sp :: rest => importSpecDeclarator src sp :: importDeclarators src rest

/-- The member expression module.exports.name targeted by export
assignments (lib.rs lines 179, 194, 202, 218). -/
def moduleExportsMember (name : String) : Expr :=
  .member (.member (.ident ⟨"module"⟩) (.identProp ⟨"exports"⟩))
    (.identProp ⟨name⟩)

/-- The statement module.exports.exported = loc emitted for exports. -/
def exportAssignItem (exported : String) (loc : String) : ModuleItem :=
  .stmt (.exprStmt (.assign (moduleExportsMember exported) (.ident ⟨loc⟩)))

/-- The loop at lib.rs lines 192-197: one assignment per declarator whose
pattern is a plain identifier; any other pattern contributes nothing. -/
def varDeclAssigns : List VarDeclarator → List ModuleItem
  | [] => []
  | .mk (.ident id) _ :: rest =>
      exportAssignItem id.sym id.sym :: varDeclAssigns rest
  | .mk (.objectPat _) _ :: rest => varDeclAssigns rest

/-- The loop at lib.rs lines 212-221 over export specifiers without an
inline declaration.  A named specifier pushes one assignment into the
output; a namespace specifier pushes a placeholder into a local assigns
vector that is never appended to the output (the "append assigns" comment
at line 222 is followed by no code), and the default re-export shape is
matched by neither branch — both therefore contribute nothing. -/
def exportSpecsEmit : List ExportSpecifier → List ModuleItem
  | [] => []
  | .namedE orig exported :: rest =>
      exportAssignItem exported.sym orig.sym :: exportSpecsEmit rest
  | .namespaceE _ :: rest => exportSpecsEmit rest
  | .defaultE _ :: rest => exportSpecsEmit rest

/-- The per-item match inside visit_mut_program (lib.rs lines 107-228):
the list of replacement items pushed for one original module item. -/
def visitModuleItem : ModuleItem → List ModuleItem
  | .moduleDecl (.importD d) =>
      if d.specifiers.isEmpty then
        [.stmt (.exprStmt (awaitedRequire d.src))]
      else
        [.stmt (.decl (.var (.mk .constK (importDeclarators d.src d.specifiers))))]
  | .stmt s => [.stmt (visitStmt s)]
  | .moduleDecl (.exportDefaultDecl ed) =>
      [.stmt (.exprStmt (.assign (moduleExportsMember ("default"))
        (match ed with
          | .exprD e => e
          | .fnD id f => .fnExpr id f
          | .classD id c => .classExpr id c)))]
  | .moduleDecl (.exportNamed n) =>
      match n.decl with
      | some (.var vd) =>
          .stmt (.decl (.var vd)) :: varDeclAssigns (match vd with | .mk _ ds => ds)
      | some (.fn id f) =>
          [.stmt (.decl (.fn id f)), exportAssignItem id.sym id.sym]
      | some (.classDecl id c) =>
          [.moduleDecl (.exportNamed ⟨some (.classDecl id c), n.specifiers, n.src⟩)]
      | none => exportSpecsEmit n.specifiers
  | .moduleDecl (.exportAll s) => [.moduleDecl (.exportAll s)]

/-- visit_mut_program (lib.rs lines 102-234): for a module, fold over the
body pushing each item's replacements onto an accumulator; a script is
left untouched.  The transformer state is threaded and never modified —
no path calls next_tmp. -/
def visit_mut_program (t : AsyncRequireTransform) (p : Program) :
    Program × AsyncRequireTransform :=
  match p with
  | .module body =>
      (.module (body.foldl (fun acc item => acc ++ visitModuleItem item) []), t)
  | .script body => (.script body, t)

/-! Observer functions used to state the claims.  These are spec-side
measuring devices, written from scratch; none of them is part of the
transform. -/

/-- Concatenation of the lists produced for each element, in order. -/
def concatMap (f : α → List β) : List α → List β
  | [] => []
  | a :: rest => f a ++ concatMap f rest

/-- Number of top-level items of a program. -/
def programItemCount : Program → Nat
  | .module items => items.length
  | .script body => body.length

/-- Whether a module item is a plain statement. -/
def isStmtItem : ModuleItem → Bool
  | .stmt _ => true
  | .moduleDecl _ => false

/-- Whether a module item is an import declaration. -/
def isImportItem : ModuleItem → Bool
  | .moduleDecl (.importD _) => true
  | _ => false

/-- Whether an expression is the bare identifier require. -/
def isBareRequireIdent : Expr → Bool
  | .ident i => i.sym == "require"
  | _ => false

mutual
/-- Whether an expression subtree contains a call whose callee is the
bare identifier require.  Unlike the visitor, this checker descends into
every child, including call arguments. -/
def exprHasBareRequire : Expr → Bool
  | .ident _ => false
  | .lit _ => false
  | .call (.mk callee args) =>
      (match callee with
        | .expr e => isBareRequireIdent e || exprHasBareRequire e
        | .dynImport => false) || argsHaveBareRequire args
  | .member obj p =>
      exprHasBareRequire obj ||
      (match p with
        | .identProp _ => false
        | .computedProp e => exprHasBareRequire e)
  | .await a => exprHasBareRequire a
  | .assign l r => exprHasBareRequire l || exprHasBareRequire r
  | .fnExpr _ f => functionHasBareRequire f
  | .classExpr _ c => classHasBareRequire c
def argsHaveBareRequire : List ExprOrSpread → Bool
  | [] => false
  | .mk _ e :: rest => exprHasBareRequire e || argsHaveBareRequire rest
def optExprHasBareRequire : Option Expr → Bool
  | none => false
  | some e => exprHasBareRequire e
def functionHasBareRequire : FunctionNode → Bool
  | .mk _ body => stmtsHaveBareRequire body
def functionsHaveBareRequire : List FunctionNode → Bool
  | [] => false
  | f :: fs => functionHasBareRequire f || functionsHaveBareRequire fs
def classHasBareRequire : ClassDef → Bool
  | .mk sup members =>
      optExprHasBareRequire sup || functionsHaveBareRequire members
def stmtHasBareRequire : Stmt → Bool
  | .decl d => declHasBareRequire d
  | .exprStmt e => exprHasBareRequire e
  | .block body => stmtsHaveBareRequire body
  | .ret a => optExprHasBareRequire a
def stmtsHaveBareRequire : List Stmt → Bool
  | [] => false
  | s :: ss => stmtHasBareRequire s || stmtsHaveBareRequire ss
def declHasBareRequire : Decl → Bool
  | .var (.mk _ ds) => declaratorsHaveBareRequire ds
  | .fn _ f => functionHasBareRequire f
  | .classDecl _ c => classHasBareRequire c
def declaratorsHaveBareRequire : List VarDeclarator → Bool
  | [] => false
  | .mk _ init :: rest =>
      optExprHasBareRequire init || declaratorsHaveBareRequire rest
end

/-- Whether a module item's subtree contains a bare require call.  Import
and export declarations are scanned through their payloads. -/
def itemHasBareRequire : ModuleItem → Bool
  | .stmt s => stmtHasBareRequire s
  | .moduleDecl (.importD _) => false
  | .moduleDecl (.exportDefaultDecl ed) =>
      match ed with
      | .exprD e => exprHasBareRequire e
      | .fnD _ f => functionHasBareRequire f
      | .classD _ c => classHasBareRequire c
  | .moduleDecl (.exportNamed n) =>
      match n.decl with
      | some d => declHasBareRequire d
      | none => false
  | .moduleDecl (.exportAll _) => false

/-- Whether any item of a program contains a bare require call. -/
def programHasBareRequire : Program → Bool
  | .module items => items.any itemHasBareRequire
  | .script body => body.any stmtHasBareRequire

/-- Names bound by a pattern. -/
def patBinders : Pat → List String
  | .ident id => [id.sym]
  | .objectPat props => props.map (fun i => i.sym)

/-- Names bound by a list of variable declarators. -/
def declaratorsBinders : List VarDeclarator → List String
  | [] => []
  | .mk name _ :: rest => patBinders name ++ declaratorsBinders rest

/-- Module-scope names bound by a declaration. -/
def declBinders : Decl → List String
  | .var (.mk _ ds) => declaratorsBinders ds
  | .fn id _ => [id.sym]
  | .classDecl id _ => [id.sym]

mutual
/-- Module-scope names bound by a statement: declaration binders,
collected through nested blocks.  Bindings private to function or class
bodies are not module-scope bindings and are not collected. -/
def stmtBinders : Stmt → List String
  | .decl d => declBinders d
  | .exprStmt _ => []
  | .block body => stmtsBinders body
  | .ret _ => []
def stmtsBinders : List Stmt → List String
  | [] => []
  | s :: ss => stmtBinders s ++ stmtsBinders ss
end

/-- The local name bound by an import specifier. -/
def importSpecLocal : ImportSpecifier → String
  | .defaultSpec loc => loc.sym
  | .namedSpec loc _ => loc.sym
  | .namespaceSpec loc => loc.sym

/-- Module-scope names bound by a module declaration. -/
def moduleDeclBinders : ModuleDecl → List String
  | .importD d => d.specifiers.map importSpecLocal
  | .exportDefaultDecl ed =>
      match ed with
      | .fnD (some i) _ => [i.sym]
      | .classD (some i) _ => [i.sym]
      | _ => []
  | .exportNamed n =>
      match n.decl with
      | some d => declBinders d
      | none => []
  | .exportAll _ => []

/-- Module-scope names bound by a module item. -/
def itemBinders : ModuleItem → List String
  | .stmt s => stmtBinders s
  | .moduleDecl d => moduleDeclBinders d

/-- All module-scope binding names of a program. -/
def programBinders : Program → List String
  | .module items => concatMap itemBinders items
  | .script body => stmtsBinders body

/-! Spec-side definitions.  Each transcribes the wording of a spec claim
and is compared against the transform's output in the theorems below. -/

/-- Spec-side binding for one import specifier, as the spec words it: a
default specifier x yields a binding x initialized to an awaited call of
the async-require primitive with the source string as sole argument; a
named specifier a (optionally aliased to b) yields a binding b (or a)
initialized to property access .a on the awaited call; a namespace
specifier yields a binding exactly like the default case. -/
def specImportBinding (src : Str) : ImportSpecifier → VarDeclarator
  | .defaultSpec x => .mk (.ident x) (some (awaitedRequire src))
  | .namedSpec b imported =>
      .mk (.ident b) (some (.member (awaitedRequire src)
        (.identProp ⟨match imported with
          | some (.identM a) => a.sym
          | some (.strM a) => a.value
          | none => b.sym⟩)))
  | .namespaceSpec ns => .mk (.ident ns) (some (awaitedRequire src))

/-- Spec-side default-export payload: the expression directly if given,
or the function/class rewritten as the corresponding expression form
preserving its optional name. -/
def specDefaultPayload : DefaultDecl → Expr
  | .exprD e => e
  | .fnD name f => .fnExpr name f
  | .classD name c => .classExpr name c

/-- Spec-side assignments for one declarator of an exported inline
variable declaration: one assignment exports.name = name when the
declarator binds a plain identifier, nothing otherwise. -/
def specInlineVarAssign : VarDeclarator → List ModuleItem
  | .mk (.ident id) _ => [exportAssignItem id.sym id.sym]
  | .mk (.objectPat _) _ => []

/-- Spec-side assignments for one specifier of a named export without an
inline declaration: a named specifier with local a exported as b yields
the single assignment exports.b = a; other specifier shapes yield
nothing. -/
def specNamedExportAssign : ExportSpecifier → List ModuleItem
  | .namedE a b => [exportAssignItem b.sym a.sym]
  | .namespaceE _ => []
  | .defaultE _ => []

/-- Spec-side callee renaming: a bare require identifier becomes the
async-require identifier, a dynamic-import callee becomes the
async-import identifier, and every other callee shape is unchanged. -/
def specRenameCallee : Callee → Callee
  | .expr (.ident i) =>
      if i.sym = ("require") then .expr (.ident ⟨"__require__"⟩)
      else .expr (.ident i)
  | .expr e => .expr e
  | .dynImport => .expr (.ident ⟨"__import__"⟩)

/-! Concrete inputs used by the counterexample theorems. -/

/-- A namespace re-export item: export * as ns from 'mod'. -/
def c2item : ModuleItem :=
  .moduleDecl (.exportNamed ⟨none, [.namespaceE ⟨"ns"⟩], some ⟨"mod"⟩⟩)

/-- A one-item module whose only item is the empty named export
export { }. -/
def c3prog : Program :=
  .module [.moduleDecl (.exportNamed ⟨none, [], none⟩)]

/-- A one-item module: export const a = require('x'). -/
def c4prog : Program :=
  .module [.moduleDecl (.exportNamed
    ⟨some (.var (.mk .constK [.mk (.ident ⟨"a"⟩)
      (some (.call (.mk (.expr (.ident ⟨"require"⟩))
        [.mk false (.lit (.strL ⟨"x"⟩))])))])), [], none⟩)]

/-- A named export with an inline class declaration: export class C { }. -/
def c6item : ModuleItem :=
  .moduleDecl (.exportNamed ⟨some (.classDecl ⟨"C"⟩ (.mk none [])), [], none⟩)

/-- A plain statement whose subtree holds a require call nested inside
another call's argument list: f(require('x')). -/
def c8stmt : Stmt :=
  .exprStmt (.call (.mk (.expr (.ident ⟨"f"⟩))
    [.mk false (.call (.mk (.expr (.ident ⟨"require"⟩))
      [.mk false (.lit (.strL ⟨"x"⟩))]))]))

/-- Whether a program's top-level item list holds an import declaration. -/
def programHasImportDecl : Program → Bool
  | .module items => items.any isImportItem
  | .script _ => false

end Swc

open Swc

/-! General lemmas about the observers. -/

theorem concatMap_append (f : α → List β) (l1 l2 : List α) :
    concatMap f (l1 ++ l2) = concatMap f l1 ++ concatMap f l2 := by
  induction l1 with
  | nil => simp [concatMap]
  | cons a l ih => simp [concatMap, ih]

theorem mem_concatMap {f : α → List β} {b : β} :
    ∀ {l : List α}, b ∈ concatMap f l ↔ ∃ a, a ∈ l ∧ b ∈ f a := by
  intro l
  induction l with
  | nil => simp [concatMap]
  | cons a rest ih =>
      simp only [concatMap, List.mem_append, ih, List.mem_cons]
      constructor
      · rintro (hb | ⟨x, hx, hbx⟩)
        · exact ⟨a, Or.inl rfl, hb⟩
        · exact ⟨x, Or.inr hx, hbx⟩
      · rintro ⟨x, hx | hx, hbx⟩
        · exact Or.inl (hx ▸ hbx)
        · exact Or.inr ⟨x, hx, hbx⟩

theorem foldl_append_concatMap (f : α → List β) :
    ∀ (l : List α) (acc : List β),
      l.foldl (fun a x => a ++ f x) acc = acc ++ concatMap f l := by
  intro l
  induction l with
  | nil => intro acc; simp [concatMap]
  | cons x xs ih => intro acc; simp [concatMap, ih, List.append_assoc]

/-- The director equation: a module's new body is the concatenation, in
original order, of each item's replacement items. -/
theorem visit_mut_program_module (t : AsyncRequireTransform)
    (items : List ModuleItem) :
    visit_mut_program t (.module items) =
      (.module (concatMap visitModuleItem items), t) := by
  simp [visit_mut_program, foldl_append_concatMap]

/-- The declarator loop over import specifiers agrees pointwise with the
spec-described binding, in order. -/
theorem importDeclarators_eq_map (src : Str) :
    ∀ specs : List ImportSpecifier,
      importDeclarators src specs = specs.map (specImportBinding src) := by
  intro specs
  induction specs with
  | nil => rfl
  | cons sp rest ih =>
      cases sp <;>
        simp [importDeclarators, importSpecDeclarator, specImportBinding, ih]

/-- The specifier loop of a declaration-less named export agrees with the
spec-described per-specifier assignments, in order. -/
theorem exportSpecsEmit_eq_concatMap :
    ∀ specs, exportSpecsEmit specs = concatMap specNamedExportAssign specs := by
  intro specs
  induction specs with
  | nil => rfl
  | cons sp rest ih =>
      cases sp <;> simp [exportSpecsEmit, specNamedExportAssign, concatMap, ih]

/-- C1: an import declaration with one or more specifiers is rewritten to
exactly one multi-binding const declaration whose declarators are, in the
original specifier order, exactly the bindings the claim describes: a
default specifier x binds x to an awaited async-require call on the
source string; a named specifier (optionally aliased) binds the local
name to property access on the imported name over that awaited call; a
namespace specifier binds exactly like the default case. -/
theorem c1_import_specifier_bindings (sp : ImportSpecifier)
    (rest : List ImportSpecifier) (src : Str) :
    visitModuleItem (.moduleDecl (.importD ⟨sp :: rest, src⟩)) =
      [.stmt (.decl (.var (.mk .constK
        ((sp :: rest).map (specImportBinding src)))))] := by
  simp [visitModuleItem, importDeclarators_eq_map]

/-- C2: the namespace re-export item export * as ns from 'mod' is
silently dropped by the transform: it contributes zero output items and
raises no error, both in isolation and inside a whole-program run. -/
theorem c2_namespace_reexport_silently_dropped :
    visitModuleItem c2item = [] ∧
    (visit_mut_program AsyncRequireTransform.new (.module [c2item])).1 =
      .module [] := by
  exact ⟨rfl, rfl⟩

/-- C3 counterexample: on the module whose only item is the empty named
export export { }, the output item sequence is strictly shorter than the
input's, refuting the claim that its length is greater than or equal. -/
theorem c3_length_counterexample :
    programItemCount ((visit_mut_program AsyncRequireTransform.new c3prog).1) <
      programItemCount c3prog := by
  decide

/-- C3 amended: each input top-level item expands to zero or more output
items, and the output body is the concatenation of those expansions in
original input order, so the relative order of output items coming from
distinct original items matches the original order (the output can be
shorter than the input, since some items expand to nothing). -/
theorem c3_order_preserved_amended (t : AsyncRequireTransform)
    (items : List ModuleItem) :
    (visit_mut_program t (.module items)).1 =
      .module (concatMap visitModuleItem items) := by
  rw [visit_mut_program_module]

/-- C5: every default export is rewritten to exactly one assignment of
its payload to the default property of the exports object, the payload
being the expression unchanged, or the function/class turned into the
corresponding expression form preserving its optional name. -/
theorem c5_default_export_assignment (ed : DefaultDecl) :
    visitModuleItem (.moduleDecl (.exportDefaultDecl ed)) =
      [.stmt (.exprStmt (.assign (moduleExportsMember ("default"))
        (specDefaultPayload ed)))] := by
  cases ed <;> rfl

/-- C7: a named export without an inline declaration is rewritten to the
concatenation, in original left-to-right specifier order, of the
spec-described assignments: exactly one assignment of the local name to
the exported-name property of the exports object per named specifier. -/
theorem c7_named_reexport_assignments (specs : List ExportSpecifier)
    (src : Option Str) :
    visitModuleItem (.moduleDecl (.exportNamed ⟨none, specs, src⟩)) =
      concatMap specNamedExportAssign specs := by
  simp [visitModuleItem, exportSpecsEmit_eq_concatMap]

/-- C9: a bare import with zero specifiers is rewritten to exactly one
expression statement awaiting the async-require call on the source
string, and the replacement binds no names. -/
theorem c9_bare_import_side_effect (src : Str) :
    visitModuleItem (.moduleDecl (.importD ⟨[], src⟩)) =
      [.stmt (.exprStmt (.await (.call (.mk (.expr (.ident ⟨"__require__"⟩))
        [.mk false (.lit (.strL src))]))))] ∧
    concatMap itemBinders
      (visitModuleItem (.moduleDecl (.importD ⟨[], src⟩))) = [] := by
  exact ⟨rfl, rfl⟩

/-- The inline-variable assignment loop agrees with the spec-described
per-declarator assignments, in order. -/
theorem varDeclAssigns_eq_concatMap :
    ∀ ds, varDeclAssigns ds = concatMap specInlineVarAssign ds := by
  intro ds
  induction ds with
  | nil => rfl
  | cons d rest ih =>
      cases d with
      | mk name init =>
          cases name <;>
            simp [varDeclAssigns, specInlineVarAssign, concatMap, ih]

/-- C6 counterexample: on export class C, the transform emits the
original export declaration itself, unchanged and still a module
declaration rather than a statement, so neither the claimed plain
declaration statement nor the claimed assignment is emitted. -/
theorem c6_class_export_counterexample :
    visitModuleItem c6item = [c6item] ∧ isStmtItem c6item = false := by
  exact ⟨rfl, rfl⟩

/-- C6 amended: for a named export with an inline variable declaration,
the declaration is emitted unchanged followed by one assignment per
declarator bound by a plain identifier pattern, in declaration order
(declarators with destructuring patterns contribute no assignment); for
an inline function declaration, the declaration followed by exactly one
assignment; an inline class declaration passes through as the original
export declaration, unchanged. -/
theorem c6_inline_decl_export_amended (d : Decl)
    (specs : List ExportSpecifier) (src : Option Str) :
    visitModuleItem (.moduleDecl (.exportNamed ⟨some d, specs, src⟩)) =
      match d with
      | .var vd => .stmt (.decl (.var vd)) ::
          concatMap specInlineVarAssign (match vd with | .mk _ ds => ds)
      | .fn id f =>
          [.stmt (.decl (.fn id f)), exportAssignItem id.sym id.sym]
      | .classDecl id c =>
          [.moduleDecl (.exportNamed ⟨some (.classDecl id c), specs, src⟩)] := by
  cases d with
  | var vd =>
      cases vd with
      | mk k ds => simp [visitModuleItem, varDeclAssigns_eq_concatMap]
  | fn id f => rfl
  | classDecl id c => rfl

/-- C8 counterexample: in the plain statement f(require('x')) the inner
require call sits inside another call's argument list; the visitor does
not descend into a call expression's children, so the statement is
returned entirely unchanged and the bare require call survives. -/
theorem c8_nested_require_counterexample :
    visitStmt c8stmt = c8stmt ∧
    stmtHasBareRequire (visitStmt c8stmt) = true := by
  exact ⟨rfl, by decide⟩

/-- C8 amended: for every call expression the visitor actually reaches
(it does not descend into a call's children, so calls nested under
another call are never reached), the rewrite only renames the callee and
keeps the argument list untouched with no await inserted: a bare require
callee becomes the async-require identifier, a dynamic-import callee
becomes the async-import identifier, and every other callee shape is
left unchanged. -/
theorem c8_call_rewrite_amended (callee : Callee) (args : List ExprOrSpread) :
    visit_mut_call_expr (.mk callee args) = .mk (specRenameCallee callee) args := by
  cases callee with
  | expr e =>
      cases e <;> simp [visit_mut_call_expr, specRenameCallee]
      case ident i =>
        by_cases h : i.sym = ("require") <;> simp [h]
  | dynImport => rfl

/-- C4 counterexample: on the module export const a = require('x') the
first pass keeps the exported declaration's initializer unvisited, so its
output still contains a call whose callee is the bare identifier require,
and the second pass then rewrites it — the second pass is not a no-op. -/
theorem c4_idempotence_counterexample :
    programHasBareRequire
      ((visit_mut_program AsyncRequireTransform.new c4prog).1) = true ∧
    programHasBareRequire
      ((visit_mut_program AsyncRequireTransform.new
        ((visit_mut_program AsyncRequireTransform.new c4prog).1)).1) = false := by
  exact ⟨by decide, by decide⟩

/-- Every item emitted by the specifier loop of a declaration-less named
export is a statement. -/
theorem mem_exportSpecsEmit_stmt :
    ∀ specs it, it ∈ exportSpecsEmit specs → isStmtItem it = true := by
  intro specs
  induction specs with
  | nil => intro it h; cases h
  | cons sp rest ih =>
      intro it h
      cases sp with
      | namedE o e =>
          cases h with
          | head => rfl
          | tail _ h2 => exact ih it h2
      | namespaceE n => exact ih it h
      | defaultE l => exact ih it h

/-- Every item emitted by the inline-variable assignment loop is a
statement. -/
theorem mem_varDeclAssigns_stmt :
    ∀ ds it, it ∈ varDeclAssigns ds → isStmtItem it = true := by
  intro ds
  induction ds with
  | nil => intro it h; cases h
  | cons d rest ih =>
      intro it h
      cases d with
      | mk name init =>
          cases name with
          | ident id =>
              cases h with
              | head => rfl
              | tail _ h2 => exact ih it h2
          | objectPat props => exact ih it h

/-- A statement item is never an import declaration. -/
theorem isImportItem_of_stmt (it : ModuleItem) (h : isStmtItem it = true) :
    isImportItem it = false := by
  cases it with
  | stmt s => rfl
  | moduleDecl d => simp [isStmtItem] at h

/-- No replacement item produced for any original item is an import
declaration. -/
theorem visitModuleItem_no_import :
    ∀ item it, it ∈ visitModuleItem item → isImportItem it = false := by
  intro item it h
  cases item with
  | stmt s =>
      simp [visitModuleItem] at h
      simp [h, isImportItem]
  | moduleDecl d =>
      cases d with
      | importD idecl =>
          cases idecl with
          | mk specs src =>
              cases specs with
              | nil =>
                  simp [visitModuleItem] at h
                  simp [h, isImportItem]
              | cons sp rest =>
                  simp [visitModuleItem] at h
                  simp [h, isImportItem]
      | exportDefaultDecl ed =>
          simp [visitModuleItem] at h
          simp [h, isImportItem]
      | exportNamed n =>
          obtain ⟨dcl, specs, src⟩ := n
          cases dcl with
          | none =>
              exact isImportItem_of_stmt it (mem_exportSpecsEmit_stmt specs it h)
          | some d2 =>
              cases d2 with
              | var vd =>
                  cases vd with
                  | mk k ds =>
                      simp [visitModuleItem] at h
                      cases h with
                      | inl h2 => simp [h2, isImportItem]
                      | inr h2 =>
                          exact isImportItem_of_stmt it
                            (mem_varDeclAssigns_stmt ds it h2)
              | fn id f =>
                  simp [visitModuleItem] at h
                  cases h with
                  | inl h2 => simp [h2, isImportItem]
                  | inr h2 => simp [h2, exportAssignItem, isImportItem]
              | classDecl id c =>
                  simp [visitModuleItem] at h
                  simp [h, isImportItem]
      | exportAll s =>
          simp [visitModuleItem] at h
          simp [h, isImportItem]

/-- C4 amended: after one pass no import declaration remains among the
output's top-level items.  Idempotence in full does not hold: preserved
export declarations keep their subtrees unvisited and unhandled export
shapes pass through, so bare require calls and export declarations can
survive the first pass (see the counterexample). -/
theorem c4_no_imports_amended (t : AsyncRequireTransform) (p : Program) :
    programHasImportDecl ((visit_mut_program t p).1) = false := by
  cases p with
  | module items =>
      rw [visit_mut_program_module]
      simp only [programHasImportDecl, List.any_eq_false]
      intro it hit
      obtain ⟨item, _, hmem⟩ := mem_concatMap.mp hit
      simp [visitModuleItem_no_import item it hmem]
  | script body => rfl

/-- Visiting a declarator list preserves the names it binds: the visitor
only rewrites initializer expressions, never binding patterns. -/
theorem declaratorsBinders_visit :
    ∀ ds, declaratorsBinders (visitVarDeclarators ds) = declaratorsBinders ds := by
  intro ds
  induction ds with
  | nil => rfl
  | cons d rest ih =>
      cases d with
      | mk name init =>
          simp [visitVarDeclarators, visitVarDeclarator, declaratorsBinders, ih]

/-- Visiting a declaration preserves the names it binds. -/
theorem declBinders_visitDecl (d : Decl) :
    declBinders (visitDecl d) = declBinders d := by
  cases d with
  | var v =>
      cases v with
      | mk k ds => simp [visitDecl, visitVarDecl, declBinders, declaratorsBinders_visit]
  | fn id f => rfl
  | classDecl id c => rfl

mutual
/-- Visiting a statement preserves its module-scope binders. -/
theorem stmtBinders_visitStmt (s : Stmt) :
    stmtBinders (visitStmt s) = stmtBinders s := by
  cases s with
  | decl d => simp [visitStmt, stmtBinders, declBinders_visitDecl]
  | exprStmt e => rfl
  | block body => simp [visitStmt, stmtBinders, stmtsBinders_visitStmts body]
  | ret a => rfl
/-- Visiting a statement list preserves its module-scope binders. -/
theorem stmtsBinders_visitStmts (ss : List Stmt) :
    stmtsBinders (visitStmts ss) = stmtsBinders ss := by
  cases ss with
  | nil => rfl
  | cons s rest =>
      simp [visitStmts, stmtsBinders, stmtBinders_visitStmt s,
        stmtsBinders_visitStmts rest]
end

/-- The declarators built for an import declaration bind exactly the
specifier locals, in order. -/
theorem declaratorsBinders_importDeclarators (src : Str) :
    ∀ specs, declaratorsBinders (importDeclarators src specs) =
      specs.map importSpecLocal := by
  intro specs
  induction specs with
  | nil => rfl
  | cons sp rest ih =>
      cases sp <;>
        simp [importDeclarators, importSpecDeclarator, declaratorsBinders,
          patBinders, importSpecLocal, ih]

/-- The assignments emitted for an exported variable declaration bind
nothing. -/
theorem itemBinders_varDeclAssigns :
    ∀ ds, concatMap itemBinders (varDeclAssigns ds) = [] := by
  intro ds
  induction ds with
  | nil => rfl
  | cons d rest ih =>
      cases d with
      | mk name init =>
          cases name <;>
            simp [varDeclAssigns, concatMap, itemBinders, exportAssignItem,
              stmtBinders, ih]

/-- The assignments emitted for a declaration-less named export bind
nothing. -/
theorem itemBinders_exportSpecsEmit :
    ∀ specs, concatMap itemBinders (exportSpecsEmit specs) = [] := by
  intro specs
  induction specs with
  | nil => rfl
  | cons sp rest ih =>
      cases sp <;>
        simp [exportSpecsEmit, concatMap, itemBinders, exportAssignItem,
          stmtBinders, ih]

/-- The replacement items for one original item bind at most the names
that original item bound. -/
theorem itemBinders_visitModuleItem (item : ModuleItem) :
    concatMap itemBinders (visitModuleItem item) ⊆ itemBinders item := by
  cases item with
  | stmt s =>
      simp only [visitModuleItem, concatMap, itemBinders,
        List.append_nil, stmtBinders_visitStmt]
      exact List.Subset.refl _
  | moduleDecl d =>
      cases d with
      | importD idecl =>
          obtain ⟨specs, src⟩ := idecl
          cases specs with
          | nil => simp [visitModuleItem, concatMap, itemBinders, stmtBinders]
          | cons sp rest =>
              simp only [visitModuleItem, List.isEmpty_cons, Bool.false_eq_true,
                if_false, concatMap, itemBinders, stmtBinders, declBinders,
                List.append_nil, declaratorsBinders_importDeclarators,
                moduleDeclBinders]
              exact List.Subset.refl _
      | exportDefaultDecl ed =>
          simp [visitModuleItem, concatMap, itemBinders, stmtBinders]
      | exportNamed n =>
          obtain ⟨dcl, specs, src⟩ := n
          cases dcl with
          | none =>
              simp [visitModuleItem, itemBinders_exportSpecsEmit]
          | some d2 =>
              cases d2 with
              | var vd =>
                  obtain ⟨k, ds⟩ := vd
                  simp only [visitModuleItem, concatMap, itemBinders,
                    stmtBinders, itemBinders_varDeclAssigns, List.append_nil,
                    moduleDeclBinders]
                  exact List.Subset.refl _
              | fn id f =>
                  simp only [visitModuleItem, concatMap, itemBinders,
                    stmtBinders, declBinders, exportAssignItem,
                    List.append_nil, moduleDeclBinders]
                  exact List.Subset.refl _
              | classDecl id c =>
                  simp only [visitModuleItem, concatMap, itemBinders,
                    List.append_nil, moduleDeclBinders]
                  exact List.Subset.refl _
      | exportAll s =>
          simp [visitModuleItem, concatMap, itemBinders, moduleDeclBinders]

/-- C10: the transform never generates a synthetic binding.  Run from a
fresh transformer, the counter next_tmp would bump is still zero after
the pass — no rewrite path invokes the name generator — and every
module-scope binding name of the output already occurs as a module-scope
binding name of the input (the fixed identifiers the rewrites introduce,
such as the async primitives and the exports object, are only ever used,
never bound). -/
theorem c10_no_synthetic_bindings (p : Program) :
    ((visit_mut_program AsyncRequireTransform.new p).2).tmp_counter = 0 ∧
    programBinders ((visit_mut_program AsyncRequireTransform.new p).1) ⊆
      programBinders p := by
  constructor
  · cases p <;> rfl
  · cases p with
    | module items =>
        rw [visit_mut_program_module]
        simp only [programBinders]
        intro x hx
        obtain ⟨it, hit, hx2⟩ := mem_concatMap.mp hx
        obtain ⟨item, hitem, hmem⟩ := mem_concatMap.mp hit
        have hin : x ∈ concatMap itemBinders (visitModuleItem item) :=
          mem_concatMap.mpr ⟨it, hmem, hx2⟩
        exact mem_concatMap.mpr ⟨item, hitem, itemBinders_visitModuleItem item hin⟩
    | script body => intro x hx; exact hx
